import Mathlib

/-!
Shallow embedding of the core of `music-cli` (files `src/music_cli.py` and
`src/play.py`): the configuration store, the library catalog, the history
log, the playback session, the resolver step of the `play` commands, and
the command boundary of `download`.  External collaborators (filesystem
existence checks, the `yt-dlp` downloader, the player subprocess, the
network search) enter as explicit oracle arguments, so every function here
is a pure, executable translation of the corresponding Python code.
-/

namespace MusicCli

/-- A JSON scalar value as it occurs in the configuration dictionary
(`music_config.json` holds only strings and booleans). -/
inductive JVal where
  | str (s : String)
  | jbool (b : Bool)
  deriving DecidableEq, Repr

/-- A Python/JSON dictionary, modelled as an association list in insertion
order (Python dicts preserve insertion order and have no duplicate keys;
lookup takes the first match, which agrees with that invariant). -/
abbrev Dict := List (String × JVal)

/-- `DEFAULT_CONFIG` from `src/music_cli.py` (lines 15-22). -/
def DEFAULT_CONFIG : Dict :=
  [("player", .str "terminal"),
   ("theme", .str "dark"),
   ("download_dir", .str "music"),
   ("history_file", .str "history.json"),
   ("library_db", .str "library.db"),
   ("show_logs", .jbool false)]

/-- Python's `{**a, **b}`: `a`'s keys in order with `b`'s value winning on a
shared key, followed by the keys of `b` that are not in `a`. -/
def dictMerge (a b : Dict) : Dict :=
  a.map (fun kv => (kv.1, ((b.lookup kv.1).getD kv.2))) ++
    b.filter (fun kv => (a.lookup kv.1).isNone)

/-- On-disk state of `music_config.json`: absent, present but not valid
JSON, or a parsed JSON object. -/
inductive ConfigDisk where
  | absent
  | corrupt
  | object (j : Dict)
  deriving DecidableEq, Repr

/-- `MusicPlayer._load_config` (`src/music_cli.py` lines 65-69): an absent
file yields a copy of the defaults; a present file is parsed with
`json.load` and merged over the defaults via `{**DEFAULT_CONFIG, **json.load(f)}`.
`json.load` on an unparsable file raises `json.JSONDecodeError`, which the
function does not catch: that is the `.error` case. -/
def loadConfig : ConfigDisk → Except String Dict
  | .absent => .ok DEFAULT_CONFIG
  | .corrupt => .error "JSONDecodeError"
  | .object j => .ok (dictMerge DEFAULT_CONFIG j)

/-- `MusicPlayer._save_config` (`src/music_cli.py` lines 71-73): writes the
in-memory configuration dictionary to the file, which then parses back to
exactly that dictionary. -/
def saveConfig (c : Dict) : ConfigDisk := .object c

/-! History log (`_log_history`, `get_history`, `clear_history`). -/

/-- A history entry `{timestamp, action, title}` as serialized by
`MusicPlayer._log_history` (`src/music_cli.py` lines 75-82). -/
structure HistoryEntry where
  timestamp : String
  action : String
  title : String
  deriving DecidableEq, Repr

/-- One physical line of the history file: `some e` is a well-formed JSON
line that `json.loads` parses to `e` (round-tripping `json.dumps`), `none`
is a malformed line on which `json.loads` raises. -/
abbrev HLine := Option HistoryEntry

/-- On-disk state of the history file: absent, or a list of lines. -/
inductive HistoryDisk where
  | absent
  | lines (ls : List HLine)
  deriving DecidableEq, Repr

/-- The lines the append mode `open(..., "a")` sees: an absent file is
created empty. -/
def HistoryDisk.asLines : HistoryDisk → List HLine
  | .absent => []
  | .lines ls => ls

/-- The list comprehension `[json.loads(line) for line in f.readlines()]`
(`src/music_cli.py` line 163): parses each line in file order and raises
`json.JSONDecodeError` at the first malformed line. -/
def parseHistoryLines : List HLine → Except String (List HistoryEntry)
  | [] => .ok []
  | some e :: rest => (parseHistoryLines rest).map (fun es => e :: es)
  | none :: _ => .error "JSONDecodeError"

/-- `MusicPlayer.get_history` (`src/music_cli.py` lines 160-165): only
`FileNotFoundError` is caught (yielding `[]`); a JSON decode error
propagates out of the method. -/
def getHistory : HistoryDisk → Except String (List HistoryEntry)
  | .absent => .ok []
  | .lines ls => parseHistoryLines ls

/-- `MusicPlayer._log_history` (`src/music_cli.py` lines 75-82): appends one
well-formed JSON line `{"timestamp": ts, "action": "play", "title": title}`. -/
def logHistory (h : HistoryDisk) (ts title : String) : HistoryDisk :=
  .lines (h.asLines ++ [some ⟨ts, "play", title⟩])

/-- `MusicPlayer.clear_history` (`src/music_cli.py` lines 167-168):
truncates the file to empty. -/
def clearHistory (_ : HistoryDisk) : HistoryDisk := .lines []

/-! Library catalog (`_init_library`, `_add_to_library`, `get_library`). -/

/-- A row of the `songs` table (`title TEXT UNIQUE, path TEXT, added_date
DATETIME`); the autoincrement `id` is the list position. -/
structure LibEntry where
  title : String
  path : String
  addedDate : Nat
  deriving DecidableEq, Repr

/-- Number of catalog rows carrying a given title. -/
def countTitle (lib : List LibEntry) (t : String) : Nat :=
  (lib.filter (fun e => e.title == t)).length

/-- `MusicPlayer._add_to_library` (`src/music_cli.py` lines 153-158):
`INSERT OR IGNORE` against the `UNIQUE` constraint on `title` — if a row
with this title exists the statement is a no-op, otherwise a new row is
appended with the current datetime. -/
def addToLibrary (lib : List LibEntry) (title path : String) (now : Nat) :
    List LibEntry :=
  if lib.any (fun e => e.title == title) then lib
  else lib ++ [⟨title, path, now⟩]

/-- `MusicPlayer.download` (`src/music_cli.py` lines 139-151).  The external
`yt-dlp` invocation is the oracle `exitCode`: `none` means `subprocess.run`
itself raised (the `except` branch), `some c` an exit status `c`.  Returns
the Python return value and the resulting catalog. -/
def download (lib : List LibEntry) (ddir title : String) (now : Nat)
    (exitCode : Option Int) : Bool × List LibEntry :=
  match exitCode with
  | none => (false, lib)
  | some c =>
      if c = 0 then
        (true, addToLibrary lib title (ddir ++ "/" ++ title ++ ".mp3") now)
      else (false, lib)

/-! Playback session (`play`, `_play_in_terminal`, `terminal_control`). -/

/-- A spawned player subprocess; `alive` is `poll() is None`. -/
structure Proc where
  alive : Bool
  deriving DecidableEq, Repr

/-- The mutable state of a `MusicPlayer` instance that playback touches:
the configured backend (`config["player"]`), `self.current_process`,
`self.paused`, and the history file.  `__init__` (`src/music_cli.py` lines
42-47) starts with `current_process = None` and `paused = False`. -/
structure PlayerState where
  player : String
  currentProcess : Option Proc
  paused : Bool
  history : HistoryDisk
  deriving DecidableEq, Repr

/-- `self.current_process and self.current_process.poll() is None`
(`src/music_cli.py` line 129). -/
def liveProc (s : PlayerState) : Bool :=
  match s.currentProcess with
  | some p => p.alive
  | none => false

/-- `MusicPlayer.play` together with `MusicPlayer._play_in_terminal`
(`src/music_cli.py` lines 92-126).  The external calls are oracles:
`spawnTerm` is the terminal backend's `subprocess.Popen(["mpv", ...])`
(`none` = the call raised, `some p` = it returned handle `p`, which may
already be dead); `ytdlp` is `subprocess.check_output(["yt-dlp", ...])`
(`none` = it raised, e.g. on a nonzero exit); `spawnExt` is the external
backend's `subprocess.Popen([player, stream_url])`.  `ts` is the
`datetime.now().isoformat()` timestamp `_log_history` writes.  Returns the
Python return value and the state after the call; every raised exception is
caught by the method's `except`, which returns `False`. -/
def play (s : PlayerState) (ts title : String)
    (spawnTerm : Option Proc) (ytdlp : Option String) (spawnExt : Option Proc) :
    Bool × PlayerState :=
  if s.player == "terminal" then
    match spawnTerm with
    | some p =>
        (true, { s with currentProcess := some p,
                        history := logHistory s.history ts title })
    | none => (false, s)
  else
    match ytdlp with
    | none => (false, s)
    | some _ =>
        match spawnExt with
        | some p =>
            (true, { s with currentProcess := some p,
                            history := logHistory s.history ts title })
        | none => (false, s)

/-- `MusicPlayer.terminal_control` (`src/music_cli.py` lines 128-137): with
a live process, `"pause"` writes the control keyword and toggles `paused`,
`"stop"` terminates the process, any other action does nothing; all three
return `True`.  Without a live process nothing happens and it returns
`False`. -/
def terminalControl (s : PlayerState) (action : String) : Bool × PlayerState :=
  match s.currentProcess with
  | some p =>
      if p.alive then
        if action == "pause" then (true, { s with paused := !s.paused })
        else if action == "stop" then
          (true, { s with currentProcess := some { p with alive := false } })
        else (true, s)
      else (false, s)
  | none => (false, s)

/-! Resolution step of the `play` commands. -/

/-- A search candidate as the `pytube.Search` collaborator returns it. -/
structure SearchVideo where
  title : String
  watchUrl : String
  deriving DecidableEq, Repr

/-- `os.path.basename` on POSIX: the text after the last `/`. -/
def basename (p : String) : String :=
  String.mk ((p.toList.reverse.takeWhile (fun c => !(c == '/'))).reverse)

/-- What a `play` command resolved its query to. -/
inductive Resolved where
  | localFile (path : String) (title : String)
  | url (u : String)
  | searched (candidates : List SearchVideo)
  deriving DecidableEq, Repr

/-- The resolution step of `MusicCLI.do_play` for a nonempty argument
(`src/music_cli.py` lines 236-247): `os.path.exists(arg)` is checked first
and returns before the `Search` call is reached; otherwise the first five
search results are offered for selection.  `fs` is the filesystem-existence
oracle, `searchResults` the collaborator's candidate list; the returned
Bool records whether the network `Search` call was made. -/
def doPlayResolve (fs : String → Bool) (searchResults : List SearchVideo)
    (arg : String) : Resolved × Bool :=
  if fs arg then (.localFile arg (basename arg), false)
  else (.searched (searchResults.take 5), true)

/-- The `"youtube.com/watch" in query` test of `src/play.py` line 71. -/
def containsWatch (q : String) : Bool :=
  (q.splitOn "youtube.com/watch").length > 1

/-- The resolution step of `main` in `src/play.py` (lines 66-83): existing
local path first, then the YouTube-URL shape, then network search (only the
first result is used).  The Bool again records whether `Search` was
consulted. -/
def mainResolve (fs : String → Bool) (searchResults : List SearchVideo)
    (query : String) : Resolved × Bool :=
  if fs query then (.localFile query (basename query), false)
  else if containsWatch query then (.url query, false)
  else (.searched (searchResults.take 1), true)

/-! Command boundary of `download` and the search fallback of `play.py`. -/

/-- Outcome of the `pytube.Search(...)` collaborator call: the provider was
unreachable (the call raised), or it returned a candidate list. -/
inductive SearchOutcome where
  | unreachable
  | results (vs : List SearchVideo)
  deriving DecidableEq, Repr

/-- `MusicCLI.do_download` (`src/music_cli.py` lines 267-275) at the command
boundary: `.ok` means the method returns normally to the command loop (with
the resulting catalog), `.error` that an exception escapes it — `cmd.Cmd`'s
loop does not catch exceptions from command methods, so the process
terminates abnormally.  `Search(arg).results[0]` stands outside any `try`:
an unreachable provider propagates its exception, and an empty result list
raises `IndexError`.  An empty argument is handled (a message, no
download). -/
def doDownload (arg : String) (search : SearchOutcome)
    (lib : List LibEntry) (ddir : String) (now : Nat) (exitCode : Option Int) :
    Except String (List LibEntry) :=
  if arg == "" then .ok lib
  else
    match search with
    | .unreachable => .error "SearchUnreachable"
    | .results [] => .error "IndexError"
    | .results (v :: _) => .ok (download lib ddir v.title now exitCode).2

/-- The search fallback of `main` in `src/play.py` (lines 79-85): the whole
block sits inside `try/except`, so an unreachable provider or an empty
result list (an `IndexError` from `results[0]`) is caught and reported as
"Search failed", never propagated.  Returns whether a track was obtained
and which. -/
def mainSearchFallback (search : SearchOutcome) : Bool × Option SearchVideo :=
  match search with
  | .unreachable => (false, none)
  | .results [] => (false, none)
  | .results (v :: _) => (true, some v)

/-! Lemmas about `dictMerge` lookups and history-line parsing. -/

theorem lookup_map_valdep (a : Dict) (k : String)
    (f : String → JVal → JVal) :
    (a.map (fun kv => (kv.1, f kv.1 kv.2))).lookup k = (a.lookup k).map (f k) := by
  induction a with
  | nil => rfl
  | cons hd tl ih =>
      by_cases h : k = hd.1
      · subst h
        simp [List.lookup]
      · have : (k == hd.1) = false := by simpa using h
        simp [List.lookup, this, ih]

theorem lookup_append (a b : Dict) (k : String) :
    (a ++ b).lookup k = (a.lookup k).or (b.lookup k) := by
  induction a with
  | nil => simp [List.lookup]
  | cons hd tl ih =>
      by_cases h : k = hd.1
      · subst h
        simp [List.lookup]
      · have : (k == hd.1) = false := by simpa using h
        simp [List.lookup, this, ih]

theorem lookup_filter_of_true (b : Dict) (k : String) (p : String × JVal → Bool)
    (hp : ∀ v, p (k, v) = true) :
    (b.filter p).lookup k = b.lookup k := by
  induction b with
  | nil => rfl
  | cons hd tl ih =>
      by_cases h : k = hd.1
      · subst h
        have := hp hd.2
        simp [List.filter, this, List.lookup]
      · have hk : (k == hd.1) = false := by simpa using h
        cases hpe : p hd with
        | true => simp [List.filter, hpe, List.lookup, hk, ih]
        | false => simp [List.filter, hpe, List.lookup, hk, ih]

theorem lookup_filter_of_false (b : Dict) (k : String) (p : String × JVal → Bool)
    (hp : ∀ v, p (k, v) = false) :
    (b.filter p).lookup k = none := by
  induction b with
  | nil => rfl
  | cons hd tl ih =>
      by_cases h : k = hd.1
      · subst h
        have := hp hd.2
        simp [List.filter, this, ih]
      · have hk : (k == hd.1) = false := by simpa using h
        cases hpe : p hd with
        | true => simp [List.filter, hpe, List.lookup, hk, ih]
        | false => simp [List.filter, hpe, ih]

/-- The key fact about Python's dict merge: lookup in `{**a, **b}` is lookup
in `b` first, then `a`. -/
theorem lookup_dictMerge (a b : Dict) (k : String) :
    (dictMerge a b).lookup k = (b.lookup k).or (a.lookup k) := by
  unfold dictMerge
  rw [lookup_append]
  rw [lookup_map_valdep a k (fun k v => (b.lookup k).getD v)]
  cases ha : a.lookup k with
  | none =>
      rw [lookup_filter_of_true]
      · cases hb : b.lookup k <;> simp
      · intro v; simp [ha]
  | some va =>
      rw [lookup_filter_of_false]
      · cases hb : b.lookup k <;> simp
      · intro v; simp [ha]

theorem parseHistoryLines_append_some (ls : List HLine) (e : HistoryEntry) :
    parseHistoryLines (ls ++ [some e])
      = (parseHistoryLines ls).map (fun es => es ++ [e]) := by
  induction ls with
  | nil => rfl
  | cons hd tl ih =>
      cases hd with
      | none => rfl
      | some e' =>
          have h1 : parseHistoryLines ((some e' :: tl) ++ [some e])
              = (parseHistoryLines (tl ++ [some e])).map (fun es => e' :: es) := rfl
          have h2 : parseHistoryLines (some e' :: tl)
              = (parseHistoryLines tl).map (fun es => e' :: es) := rfl
          rw [h1, h2, ih]
          cases parseHistoryLines tl <;> rfl

theorem parse_ok_of_all_some (ls : List HLine) (h : ∀ l ∈ ls, l ≠ none) :
    parseHistoryLines ls = .ok (ls.filterMap id) := by
  induction ls with
  | nil => rfl
  | cons hd tl ih =>
      cases hd with
      | none => exact absurd rfl (h none (List.mem_cons_self _ _))
      | some e =>
          have h1 : parseHistoryLines (some e :: tl)
              = (parseHistoryLines tl).map (fun es => e :: es) := rfl
          rw [h1, ih (fun l hl => h l (List.mem_cons_of_mem _ hl))]
          rfl

theorem parse_error_of_mem_none (ls : List HLine) (h : none ∈ ls) :
    ∃ m, parseHistoryLines ls = .error m := by
  induction ls with
  | nil => exact absurd h (List.not_mem_nil _)
  | cons hd tl ih =>
      cases hd with
      | none => exact ⟨"JSONDecodeError", rfl⟩
      | some e =>
          have htl : none ∈ tl := by
            rcases List.mem_cons.mp h with h' | h'
            · exact absurd h' (by simp)
            · exact h'
          obtain ⟨m, hm⟩ := ih htl
          refine ⟨m, ?_⟩
          have h1 : parseHistoryLines (some e :: tl)
              = (parseHistoryLines tl).map (fun es => e :: es) := rfl
          rw [h1, hm]
          rfl

theorem parseHistoryLines_ok_iff (ls : List HLine) :
    parseHistoryLines ls = .ok (ls.filterMap id) ↔ ∀ l ∈ ls, l ≠ none := by
  constructor
  · intro h l hl hn
    subst hn
    obtain ⟨m, hm⟩ := parse_error_of_mem_none ls hl
    rw [hm] at h
    exact Except.noConfusion h
  · exact parse_ok_of_all_some ls

/-! Claim theorems. -/

/-- C5 counterexample: an unparsable configuration file does not yield the
defaults — `_load_config` lets the `json.JSONDecodeError` escape, crashing
the program. -/
theorem loadConfig_corrupt_crashes :
    loadConfig .corrupt = .error "JSONDecodeError"
    ∧ loadConfig .corrupt ≠ .ok DEFAULT_CONFIG :=
  ⟨rfl, fun h => Except.noConfusion h⟩

/-- C5 (amended): configuration load is total except on an unparsable file —
an absent file yields the defaults and a well-formed file yields the
persisted values merged over the defaults, but an unparsable file raises an
uncaught JSON decode error instead of falling back to the defaults. -/
theorem loadConfig_effective :
    loadConfig .absent = .ok DEFAULT_CONFIG
    ∧ (∀ j, loadConfig (.object j) = .ok (dictMerge DEFAULT_CONFIG j))
    ∧ loadConfig .corrupt = .error "JSONDecodeError" :=
  ⟨rfl, fun _ => rfl, rfl⟩

/-- C8: `save(load())` is a fixed point — whenever `load` succeeds on some
on-disk state with effective configuration `c`, saving `c` and loading
again succeeds with a configuration that maps every key exactly as `c`
does. -/
theorem config_roundtrip (d : ConfigDisk) (c c' : Dict)
    (h1 : loadConfig d = .ok c) (h2 : loadConfig (saveConfig c) = .ok c')
    (k : String) : c'.lookup k = c.lookup k := by
  have hc' : c' = dictMerge DEFAULT_CONFIG c := by
    have : loadConfig (saveConfig c) = .ok (dictMerge DEFAULT_CONFIG c) := rfl
    rw [this] at h2
    exact (Except.ok.inj h2).symm
  subst hc'
  cases d with
  | corrupt => exact absurd h1 (fun h => Except.noConfusion h)
  | absent =>
      have hc : c = DEFAULT_CONFIG := (Except.ok.inj h1).symm
      subst hc
      rw [lookup_dictMerge]
      cases DEFAULT_CONFIG.lookup k <;> rfl
  | object j =>
      have hc : c = dictMerge DEFAULT_CONFIG j := by
        have : loadConfig (.object j) = .ok (dictMerge DEFAULT_CONFIG j) := rfl
        rw [this] at h1
        exact (Except.ok.inj h1).symm
      subst hc
      rw [lookup_dictMerge, lookup_dictMerge]
      cases j.lookup k <;> cases DEFAULT_CONFIG.lookup k <;> rfl

/-- C8 witness: the round trip at a persisted file that overrides `theme`
and carries an unrecognized key. -/
theorem config_roundtrip_witness :
    (dictMerge DEFAULT_CONFIG
        (dictMerge DEFAULT_CONFIG
          [("theme", .str "retro"), ("volume", .str "11")])).lookup "theme"
      = (dictMerge DEFAULT_CONFIG
          [("theme", .str "retro"), ("volume", .str "11")]).lookup "theme" :=
  config_roundtrip (.object [("theme", .str "retro"), ("volume", .str "11")])
    (dictMerge DEFAULT_CONFIG [("theme", .str "retro"), ("volume", .str "11")])
    (dictMerge DEFAULT_CONFIG
      (dictMerge DEFAULT_CONFIG [("theme", .str "retro"), ("volume", .str "11")]))
    rfl rfl "theme"

/-- C2 counterexample: a history file whose second line is malformed makes
`get_history` raise a JSON decode error; the malformed line is not skipped
and the well-formed entries are not returned. -/
theorem getHistory_raises_on_malformed :
    getHistory (.lines [some ⟨"2024-01-01T00:00:00", "play", "x"⟩, none])
      = .error "JSONDecodeError"
    ∧ getHistory (.lines [some ⟨"2024-01-01T00:00:00", "play", "x"⟩, none])
      ≠ .ok [⟨"2024-01-01T00:00:00", "play", "x"⟩] :=
  ⟨rfl, fun h => Except.noConfusion h⟩

/-- C2 (amended): `get_history` parses every line in file order and returns
all entries exactly when every line is well-formed; any malformed line makes
it raise an uncaught JSON decode error (it is not skipped); only an absent
file is handled, yielding `[]`. -/
theorem getHistory_strict (ls : List HLine) :
    (getHistory (.lines ls) = .ok (ls.filterMap id) ↔ ∀ l ∈ ls, l ≠ none)
    ∧ (none ∈ ls → ∃ m, getHistory (.lines ls) = .error m)
    ∧ getHistory .absent = .ok [] :=
  ⟨parseHistoryLines_ok_iff ls, parse_error_of_mem_none ls, rfl⟩

/-- `get_history` reads exactly the lines `asLines` exposes. -/
theorem getHistory_asLines (h : HistoryDisk) :
    getHistory h = parseHistoryLines h.asLines := by
  cases h <;> rfl

/-- C6: history is append-only with file order preserved — if reading the
history succeeds with entries `prior`, then after logging `t1` and then
`t2` it returns `prior` followed by the two new entries in that order, and
reading after `clear_history` returns the empty sequence. -/
theorem history_append_then_clear (h : HistoryDisk) (prior : List HistoryEntry)
    (ts1 ts2 t1 t2 : String) (d : HistoryDisk)
    (hp : getHistory h = .ok prior) :
    getHistory (logHistory (logHistory h ts1 t1) ts2 t2)
      = .ok (prior ++ [⟨ts1, "play", t1⟩, ⟨ts2, "play", t2⟩])
    ∧ getHistory (clearHistory d) = .ok [] := by
  refine ⟨?_, rfl⟩
  have hpl : parseHistoryLines h.asLines = .ok prior := by
    rw [← getHistory_asLines]; exact hp
  show parseHistoryLines
      ((h.asLines ++ [some ⟨ts1, "play", t1⟩]) ++ [some ⟨ts2, "play", t2⟩])
    = .ok (prior ++ [⟨ts1, "play", t1⟩, ⟨ts2, "play", t2⟩])
  rw [parseHistoryLines_append_some, parseHistoryLines_append_some, hpl]
  simp only [Except.map]
  rw [List.append_assoc]
  rfl

/-- C6 witness: appending `"b"` then `"c"` after an existing one-entry
history, then clearing. -/
theorem history_append_then_clear_witness :
    getHistory (logHistory (logHistory
        (.lines [some ⟨"t0", "play", "a"⟩]) "t1" "b") "t2" "c")
      = .ok [⟨"t0", "play", "a"⟩, ⟨"t1", "play", "b"⟩, ⟨"t2", "play", "c"⟩]
    ∧ getHistory (clearHistory (.lines [some ⟨"t0", "play", "a"⟩])) = .ok [] :=
  history_append_then_clear (.lines [some ⟨"t0", "play", "a"⟩])
    [⟨"t0", "play", "a"⟩] "t1" "t2" "b" "c"
    (.lines [some ⟨"t0", "play", "a"⟩]) rfl

/-- Appending one row changes the count of a title by 1 exactly when the
row carries it. -/
theorem countTitle_append (lib : List LibEntry) (e : LibEntry) (t : String) :
    countTitle (lib ++ [e]) t
      = countTitle lib t + (if e.title == t then 1 else 0) := by
  unfold countTitle
  rw [List.filter_append, List.length_append]
  cases h : (e.title == t) <;> simp [List.filter, h]

/-- A catalog in which no row carries `t` counts `t` zero times. -/
theorem countTitle_eq_zero (lib : List LibEntry) (t : String)
    (h : lib.any (fun e => e.title == t) = false) : countTitle lib t = 0 := by
  unfold countTitle
  rw [List.length_eq_zero, List.filter_eq_nil_iff]
  intro e he hp
  have : lib.any (fun e => e.title == t) = true :=
    List.any_eq_true.mpr ⟨e, he, hp⟩
  rw [h] at this
  exact Bool.noConfusion this

/-- C1: catalog insertion is idempotent on title.  Starting from any catalog
satisfying the `UNIQUE` invariant (at most one row per title), adding a
title twice with any paths and datetimes leaves exactly one row with that
title; the second insert is a no-op (no error is raised, no duplicate row
appears, nothing is overwritten) and every pre-existing row survives. -/
theorem catalog_add_idempotent (lib : List LibEntry) (t p1 p2 : String)
    (n1 n2 : Nat) (huniq : countTitle lib t ≤ 1) :
    countTitle (addToLibrary (addToLibrary lib t p1 n1) t p2 n2) t = 1
    ∧ addToLibrary (addToLibrary lib t p1 n1) t p2 n2 = addToLibrary lib t p1 n1
    ∧ ∀ e ∈ lib, e ∈ addToLibrary (addToLibrary lib t p1 n1) t p2 n2 := by
  cases hany : lib.any (fun e => e.title == t) with
  | false =>
      have h0 : countTitle lib t = 0 := countTitle_eq_zero lib t hany
      have h1 : addToLibrary lib t p1 n1 = lib ++ [⟨t, p1, n1⟩] := by
        unfold addToLibrary
        rw [hany]
        rfl
      have hany2 : (lib ++ [(⟨t, p1, n1⟩ : LibEntry)]).any
          (fun e => e.title == t) = true := by
        apply List.any_eq_true.mpr
        exact ⟨⟨t, p1, n1⟩, List.mem_append_right _ (List.mem_singleton.mpr rfl),
          beq_self_eq_true t⟩
      have h2 : addToLibrary (lib ++ [⟨t, p1, n1⟩]) t p2 n2
          = lib ++ [⟨t, p1, n1⟩] := by
        unfold addToLibrary
        rw [hany2]
        rfl
      refine ⟨?_, ?_, ?_⟩
      · rw [h1, h2, countTitle_append, h0]
        simp
      · rw [h1, h2]
      · intro e he
        rw [h1, h2]
        exact List.mem_append_left _ he
  | true =>
      have h1 : addToLibrary lib t p1 n1 = lib := by
        unfold addToLibrary
        rw [hany]
        rfl
      have h2 : addToLibrary lib t p2 n2 = lib := by
        unfold addToLibrary
        rw [hany]
        rfl
      have hone : countTitle lib t = 1 := by
        refine Nat.le_antisymm huniq ?_
        obtain ⟨e, he, hp⟩ := List.any_eq_true.mp hany
        have hm : e ∈ lib.filter (fun e => e.title == t) :=
          List.mem_filter.mpr ⟨he, hp⟩
        exact List.length_pos.mpr (List.ne_nil_of_mem hm)
      rw [h1, h2]
      exact ⟨hone, rfl, fun e he => he⟩

/-- C1 witness: adding `"X"` twice into an empty catalog with different
paths yields one row and the second call changes nothing. -/
theorem catalog_add_idempotent_witness :
    countTitle (addToLibrary (addToLibrary [] "X" "music/X.mp3" 1) "X"
        "other/X.mp3" 2) "X" = 1
    ∧ addToLibrary (addToLibrary [] "X" "music/X.mp3" 1) "X" "other/X.mp3" 2
        = addToLibrary [] "X" "music/X.mp3" 1
    ∧ ∀ e ∈ ([] : List LibEntry),
        e ∈ addToLibrary (addToLibrary [] "X" "music/X.mp3" 1) "X"
          "other/X.mp3" 2 :=
  catalog_add_idempotent [] "X" "music/X.mp3" "other/X.mp3" 1 2 (by decide)

/-- C4: download failure isolation — whenever the downloader does not exit
with status zero (a nonzero status, or `subprocess.run` itself raising),
`download` returns `False` and the catalog is exactly what it was before;
the catalog insert happens only on a zero exit status. -/
theorem download_failure_isolation (lib : List LibEntry) (ddir title : String)
    (now : Nat) (exitCode : Option Int) (h : exitCode ≠ some 0) :
    download lib ddir title now exitCode = (false, lib) := by
  cases exitCode with
  | none => rfl
  | some c =>
      have hc : ¬ c = 0 := fun hc0 => h (by rw [hc0])
      show (if c = 0 then
          (true, addToLibrary lib title (ddir ++ "/" ++ title ++ ".mp3") now)
        else (false, lib)) = (false, lib)
      rw [if_neg hc]

/-- C4 witness: a downloader exit status of 1 leaves a one-row catalog
untouched and reports failure. -/
theorem download_failure_isolation_witness :
    download [⟨"Old", "music/Old.mp3", 0⟩] "music" "New" 7 (some 1)
      = (false, [⟨"Old", "music/Old.mp3", 0⟩]) :=
  download_failure_isolation [⟨"Old", "music/Old.mp3", 0⟩] "music" "New" 7
    (some 1) (by decide)

/-- C3: `play` appends a history entry iff the player-spawn call itself
succeeds.  Returning `True` coincides exactly with the spawn call of the
selected backend having returned a handle (for the external backend, the
`yt-dlp` stream lookup and then the player spawn); on success exactly one
history line with the given title is appended — whether or not the spawned
process is still alive — and on failure the whole state, the history file
included, is unchanged and `False` is returned. -/
theorem play_logs_iff_spawn (s : PlayerState) (ts title : String)
    (spawnTerm spawnExt : Option Proc) (ytdlp : Option String) :
    ((play s ts title spawnTerm ytdlp spawnExt).1 = true ↔
      (if s.player == "terminal" then spawnTerm.isSome = true
       else ytdlp.isSome = true ∧ spawnExt.isSome = true))
    ∧ ((play s ts title spawnTerm ytdlp spawnExt).1 = true →
        (play s ts title spawnTerm ytdlp spawnExt).2.history.asLines
          = s.history.asLines ++ [some ⟨ts, "play", title⟩])
    ∧ ((play s ts title spawnTerm ytdlp spawnExt).1 = false →
        (play s ts title spawnTerm ytdlp spawnExt).2 = s) := by
  cases hpl : (s.player == "terminal") with
  | true =>
      cases spawnTerm with
      | none => simp [play, hpl]
      | some p => simp [play, hpl, logHistory, HistoryDisk.asLines]
  | false =>
      cases ytdlp with
      | none => simp [play, hpl]
      | some u =>
          cases spawnExt with
          | none => simp [play, hpl]
          | some p => simp [play, hpl, logHistory, HistoryDisk.asLines]

/-- C7: resolver precedence — a query naming an existing local path is
resolved to the local source with the path's basename as title, without the
network `Search` collaborator being consulted, in both `do_play`
(`music_cli.py`) and `main` (`play.py`); the outcome is independent of
whatever the search collaborator would have returned. -/
theorem resolver_local_precedence (fs : String → Bool)
    (sr sr' : List SearchVideo) (q : String) (h : fs q = true) :
    doPlayResolve fs sr q = (.localFile q (basename q), false)
    ∧ mainResolve fs sr q = (.localFile q (basename q), false)
    ∧ doPlayResolve fs sr q = doPlayResolve fs sr' q
    ∧ mainResolve fs sr q = mainResolve fs sr' q := by
  unfold doPlayResolve mainResolve
  rw [h]
  exact ⟨rfl, rfl, rfl, rfl⟩

/-- C7 witness: the spec's scenario — `"/tmp/song.mp3"` exists, so it plays
locally with title `"song.mp3"` and the search collaborator (here holding a
plausible candidate) is never consulted. -/
theorem resolver_local_precedence_witness :
    doPlayResolve (fun p => p == "/tmp/song.mp3")
        [⟨"Some Track", "u1"⟩] "/tmp/song.mp3"
      = (.localFile "/tmp/song.mp3" "song.mp3", false)
    ∧ mainResolve (fun p => p == "/tmp/song.mp3")
        [⟨"Some Track", "u1"⟩] "/tmp/song.mp3"
      = (.localFile "/tmp/song.mp3" "song.mp3", false)
    ∧ doPlayResolve (fun p => p == "/tmp/song.mp3")
        [⟨"Some Track", "u1"⟩] "/tmp/song.mp3"
      = doPlayResolve (fun p => p == "/tmp/song.mp3") [] "/tmp/song.mp3"
    ∧ mainResolve (fun p => p == "/tmp/song.mp3")
        [⟨"Some Track", "u1"⟩] "/tmp/song.mp3"
      = mainResolve (fun p => p == "/tmp/song.mp3") [] "/tmp/song.mp3" :=
  resolver_local_precedence (fun p => p == "/tmp/song.mp3")
    [⟨"Some Track", "u1"⟩] [] "/tmp/song.mp3" rfl

/-- C9 counterexample: `do_download "some track"` with the search
collaborator returning no candidates does not surface a recoverable
failure — `Search(arg).results[0]` raises an uncaught `IndexError` that
escapes the command loop (and an unreachable collaborator escapes the same
way). -/
theorem doDownload_uncaught :
    doDownload "some track" (.results []) [] "music" 0 (some 0)
      = .error "IndexError"
    ∧ doDownload "some track" .unreachable [] "music" 0 (some 0)
      = .error "SearchUnreachable"
    ∧ doDownload "some track" (.results []) [] "music" 0 (some 0)
      ≠ .ok [] :=
  ⟨rfl, rfl, fun h => Except.noConfusion h⟩

/-- C9 (amended): resolution failure is recoverable only in `play.py` —
`main`'s search fallback catches an unreachable collaborator and an empty
candidate list and reports them; in `music_cli.py`'s `do_download` the same
failures propagate as uncaught exceptions that terminate the program
abnormally (only the empty-argument case is handled there). -/
theorem resolution_failure_handling (arg : String) (search : SearchOutcome)
    (lib : List LibEntry) (ddir : String) (now : Nat) (ec : Option Int) :
    (mainSearchFallback .unreachable = (false, none)
      ∧ mainSearchFallback (.results []) = (false, none))
    ∧ (¬ arg = "" → (search = .unreachable ∨ search = .results []) →
        ∃ m, doDownload arg search lib ddir now ec = .error m)
    ∧ doDownload "" search lib ddir now ec = .ok lib := by
  refine ⟨⟨rfl, rfl⟩, ?_, rfl⟩
  intro ha hs
  have hb : (arg == "") = false := by
    cases hb : (arg == "") with
    | false => rfl
    | true => exact absurd (by simpa using hb) ha
  rcases hs with hs | hs <;> subst hs
  · exact ⟨"SearchUnreachable", by unfold doDownload; rw [hb]; rfl⟩
  · exact ⟨"IndexError", by unfold doDownload; rw [hb]; rfl⟩

/-- `play` never writes the `paused` flag, in any of its branches. -/
theorem play_preserves_paused (s : PlayerState) (ts title : String)
    (spT : Option Proc) (yd : Option String) (spE : Option Proc) :
    (play s ts title spT yd spE).2.paused = s.paused := by
  unfold play
  cases hpl : (s.player == "terminal") with
  | true =>
      cases spT with
      | none => rfl
      | some p => rfl
  | false =>
      cases yd with
      | none => rfl
      | some u =>
          cases spE with
          | none => rfl
          | some p => rfl

/-- C10: the `paused` flag is mutated only by a successful pause action on a
live process.  `terminal_control "stop"` leaves it unchanged, a control
call without a live process reports failure and changes nothing, and a new
`play` carries the flag over unchanged — so after pausing a live session
and then stopping it, a subsequently started session still begins with
`paused = true`. -/
theorem paused_only_by_pause (s0 sdead slive : PlayerState)
    (a ts title ts' title' : String) (spT spE : Option Proc)
    (yd : Option String) (hdead : liveProc sdead = false)
    (hlive : liveProc slive = true) (hpaused : slive.paused = false) :
    (terminalControl s0 "stop").2.paused = s0.paused
    ∧ (terminalControl sdead a).2 = sdead
    ∧ (terminalControl sdead a).1 = false
    ∧ (play s0 ts title spT yd spE).2.paused = s0.paused
    ∧ (play (terminalControl (terminalControl slive "pause").2 "stop").2
        ts' title' spT yd spE).2.paused = true := by
  refine ⟨?_, ?_, ?_, ?_, ?_⟩
  · obtain ⟨pl, cp, pz, hist⟩ := s0
    cases cp with
    | none => rfl
    | some p =>
        obtain ⟨alv⟩ := p
        cases alv with
        | true => rfl
        | false => rfl
  · obtain ⟨pl, cp, pz, hist⟩ := sdead
    cases cp with
    | none => rfl
    | some p =>
        obtain ⟨alv⟩ := p
        cases alv with
        | true => exact Bool.noConfusion hdead
        | false => rfl
  · obtain ⟨pl, cp, pz, hist⟩ := sdead
    cases cp with
    | none => rfl
    | some p =>
        obtain ⟨alv⟩ := p
        cases alv with
        | true => exact Bool.noConfusion hdead
        | false => rfl
  · exact play_preserves_paused s0 ts title spT yd spE
  · obtain ⟨pl, cp, pz, hist⟩ := slive
    cases cp with
    | none => exact Bool.noConfusion hlive
    | some p =>
        obtain ⟨alv⟩ := p
        cases alv with
        | false => exact Bool.noConfusion hlive
        | true =>
            have hpz : pz = false := hpaused
            subst hpz
            rw [play_preserves_paused]
            rfl

/-- C10 witness: pause a live terminal session, stop it, then start a new
track (whose process spawns but is immediately dead): the new session still
reports `paused = true`; and the frame conditions at concrete states. -/
theorem paused_only_by_pause_witness :
    (terminalControl ⟨"mpv", some ⟨true⟩, true, .lines []⟩ "stop").2.paused
      = (⟨"mpv", some ⟨true⟩, true, .lines []⟩ : PlayerState).paused
    ∧ (terminalControl ⟨"terminal", none, true, .absent⟩ "pause").2
      = ⟨"terminal", none, true, .absent⟩
    ∧ (terminalControl ⟨"terminal", none, true, .absent⟩ "pause").1 = false
    ∧ (play (⟨"mpv", some ⟨true⟩, true, .lines []⟩ : PlayerState) "t1" "x"
        (some ⟨false⟩) none none).2.paused
      = (⟨"mpv", some ⟨true⟩, true, .lines []⟩ : PlayerState).paused
    ∧ (play (terminalControl (terminalControl
          (⟨"terminal", some ⟨true⟩, false, .lines []⟩ : PlayerState)
          "pause").2 "stop").2 "t2" "y" (some ⟨false⟩) none none).2.paused
      = true :=
  paused_only_by_pause ⟨"mpv", some ⟨true⟩, true, .lines []⟩
    ⟨"terminal", none, true, .absent⟩
    ⟨"terminal", some ⟨true⟩, false, .lines []⟩
    "pause" "t1" "x" "t2" "y" (some ⟨false⟩) none none rfl rfl rfl

end MusicCli
